import Mathlib

/-!
Verification development for the `custom_mwclient` resilience layer
(`src/custom_mwclient/wiki_client.py` and `errors.py`).

We shallowly embed the two core algorithms:

* the continuation aggregator `WikiClient.api_continue`, and
* the retry-with-reauthentication engine (`WikiClient._retry_login_action`,
  `WikiClient.api_`) together with the write wrappers `save_`, `move_`,
  `delete_` and their retry closures `_retry_save`, `_retry_move`.

External effects (the wrapped `mwclient` site, `time.sleep`, `relog`) are
modelled by scripted outcomes and by returning explicit traces (the parameter
set of every request issued, the sleep durations, the number of relogins),
so that every observable behaviour the specification talks about is a value
of the embedded function.
-/

namespace CustomMwclient

/-- A Python value as far as the payload handling of `api_continue` can observe it:
the code distinguishes `collections.OrderedDict` (by an exact `type(...) ==`
check), plain `dict`, `list` (the only type with `.append`), and we add `str`
as a representative of any other type.  Dict entries are kept abstract as
string pairs; only emptiness (Python truthiness) matters. -/
inductive PyVal where
  | ordDict (entries : List (String × String))
  | dict (entries : List (String × String))
  | list (elems : List PyVal)
  | str (s : String)

/-- Python truthiness of a `PyVal`: containers are truthy iff nonempty,
strings iff nonempty. -/
def truthy : PyVal → Bool
  | .ordDict es => !es.isEmpty
  | .dict es => !es.isEmpty
  | .list es => !es.isEmpty
  | .str s => !(s == "")

/-- The exact-type check `type(x) == collections.OrderedDict` from
`api_continue` (wiki_client.py line 493): true only for the `ordDict`
constructor, false for a plain `dict`. -/
def isOrdDict : PyVal → Bool
  | .ordDict _ => true
  | _ => false

/-- A keyword-parameter set (`**kwargs`), as an ordered association list. -/
abbrev Params := List (String × String)

/-- Python `d[k]` lookup returning `none` on a missing key. -/
def lookupParam (m : Params) (k : String) : Option String :=
  (m.find? (fun p => p.1 == k)).map Prod.snd

/-- Python `d.__setitem__(k, v)`: overwrite in place if the key exists,
otherwise append (insertion order preserved). -/
def setParam : Params → String → String → Params
  | [], k, v => [(k, v)]
  | (a, b) :: m, k, v =>
    if a == k then (k, v) :: m else (a, b) :: setParam m k v

/-- One API response as `api_continue` observes it: an optional `continue`
block (an ordered key/token association list; `none` models total absence of
the key) and the action-keyed payload `api_result[action]`. -/
structure ApiResponse where
  cont : Option (List (String × String))
  payload : PyVal

/-- The scripted outcome of one `self.client.api(action, **kwargs)` call:
either the call raises (any exception) or it returns a response. -/
inductive ApiOutcome where
  | failure
  | success (r : ApiResponse)

/-- The possible outcomes of a call to `api_continue`:
`noneR` is the Python `return None` (the bare `return` on error, on a falsy
continuation token, and on a falsy recursive result); `value v` is a normal
return; `keyError` / `indexError` / `attrError` are the uncaught exceptions
the body can raise (the `continue` block lookup of `continue_name` on a missing
key, `list(...keys())[0]` on an empty block, `.append` on a non-list). -/
inductive CResult where
  | noneR
  | value (v : PyVal)
  | keyError (k : String)
  | indexError
  | attrError

/-- The result-combination step of `api_continue` (wiki_client.py lines
493–496): wrap the recursive result in a list only when its type is exactly
`collections.OrderedDict`, then call `.append(payload)` on it.  `none`
models the `AttributeError` raised when `.append` hits a non-list. -/
def combineStep (next_api_result : PyVal) (payload : PyVal) : Option PyVal :=
  let r := if isOrdDict next_api_result then PyVal.list [next_api_result]
           else next_api_result
  match r with
  | .list es => some (.list (es ++ [payload]))
  | _ => none

/-- Processing of the result of the recursive call (wiki_client.py lines
486–505): `if next_api_result:` (falsy — i.e. `None` from an error, or a
falsy value — yields `return`, Python `None`), on an exception inside the
recursion the exception propagates, and on a truthy value the
`combineStep` wrap-and-append runs. -/
def continueCombine (next : CResult × List Params) (payload : PyVal)
    (kwargs : Params) : CResult × List Params :=
  match next.1 with
  | .value v =>
    if truthy v then
      match combineStep v payload with
      | some res => (.value res, kwargs :: next.2)
      | none => (.attrError, kwargs :: next.2)
    else (.noneR, kwargs :: next.2)
  | other => (other, kwargs :: next.2)

/-- Shallow embedding of `WikiClient.api_continue` (wiki_client.py lines
447–511).  The scripted list of `ApiOutcome`s supplies, in order, the result
of each `self.client.api` call; `i` is the pre-increment value of the
recursion-depth parameter (`0` at the outside call).  Returns the final
outcome together with the trace of parameter sets, one per API call issued,
in call order. -/
def api_continue : List ApiOutcome → String → String → Nat → Params →
    CResult × List Params
  | [], _action, _cn, _i, kwargs => (.noneR, [kwargs])
  | .failure :: _, _action, _cn, _i, kwargs => (.noneR, [kwargs])
  | .success r :: rest, action, continue_name, i, kwargs =>
    match r.cont with
    | none =>
      if i + 1 = 1 then (.value (.list [r.payload]), [kwargs])
      else (.value r.payload, [kwargs])
    | some block =>
      if continue_name = "" ∧ block = [] then (.indexError, [kwargs])
      else
        let cn := if continue_name = "" then (block.headD ("", "")).1
                  else continue_name
        match lookupParam block cn with
        | none => (.keyError cn, [kwargs])
        | some tok =>
          if tok = "" then (.noneR, [kwargs])
          else
            continueCombine (api_continue rest action cn (i + 1) (setParam kwargs cn tok))
              r.payload kwargs

/-! ## Canonical pagination scripts

`mkScript k pages last` is the response sequence of a clean aggregation run:
every response before the last carries a continuation block `{k: token}`,
the last carries none. -/

/-- Build the scripted responses of an aggregation run: each element of
`pages` is `(token, payload)` for a response carrying a continuation block
with key `k`, and `last` is the payload of the final, block-less response. -/
def mkScript (k : String) : List (String × PyVal) → PyVal → List ApiOutcome
  | [], last => [.success ⟨none, last⟩]
  | (t, p) :: rest, last => .success ⟨some [(k, t)], p⟩ :: mkScript k rest last

/-- The value an inner (recursion-depth ≥ 2) `api_continue` call returns on
`mkScript k pages last`: the raw last payload when no continued page is
left, otherwise the accumulated list, last payload first. -/
def innerVal : List (String × PyVal) → PyVal → PyVal
  | [], last => last
  | tp :: rest, last => .list (last :: ((tp :: rest).map Prod.snd).reverse)

/-- The request trace of a clean run: the first request uses the incoming
parameters, and each later request adds the token of the preceding response
under key `k`. -/
def expectedTrace (k : String) : List (String × PyVal) → Params → List Params
  | [], kwargs => [kwargs]
  | (t, _) :: rest, kwargs => kwargs :: expectedTrace k rest (setParam kwargs k t)

/-- The sleep schedule of a retry loop that performs `rem` attempts starting
at attempt index `idx`: `(2 ^ n - 1) * interval` seconds before attempt
`n`. -/
def expectedSleeps (interval : Nat) : Nat → Nat → List Nat
  | 0, _ => []
  | rem + 1, idx => (2 ^ idx - 1) * interval :: expectedSleeps interval rem (idx + 1)

/-! ## The retry-with-reauthentication engine -/

/-- The exception kinds in the world of the retry engine (`errors.py`, the
`mwclient` and `requests` error classes imported by `wiki_client.py`).
`retriedLoginAndStillFailed action` embeds `RetriedLoginAndStillFailed`
(errors.py lines 8–13), which carries the attempted action name. -/
inductive WikiError where
  | assertUserFailed
  | readTimeout
  | apiError (code : String)
  | protectedPage
  | retriedLoginAndStillFailed (action : String)
deriving DecidableEq, Repr

/-- Membership in `WikiClient.write_errors = (AssertUserFailedError,
ReadTimeout, APIError)` (wiki_client.py line 24), i.e. what
`except self.write_errors` catches.  `RetriedLoginAndStillFailed` subclasses
`AssertUserFailedError` in errors.py, so it is caught too. -/
def isWriteError : WikiError → Bool
  | .assertUserFailed => true
  | .readTimeout => true
  | .apiError _ => true
  | .retriedLoginAndStillFailed _ => true
  | .protectedPage => false

/-- The three transient error kinds themselves (the classes named in the
`write_errors` tuple), as opposed to everything merely caught by the tuple. -/
def isTransientKind (e : WikiError) : Prop :=
  e = .assertUserFailed ∨ e = .readTimeout ∨ ∃ c, e = .apiError c

/-- The scripted outcome of one attempt of the retried operation `f`:
it either returns, or raises one of the `write_errors` kinds (the only
exceptions the retry loop catches). -/
inductive AttemptOutcome where
  | success
  | transientFailure
deriving DecidableEq, Repr

/-- The loop body of `WikiClient._retry_login_action` (wiki_client.py lines
171–181): per remaining iteration, call `relog()`, sleep
`(2 ** retry - 1) * retry_interval`, then attempt `f`; stop on success.
`outcome n` scripts the `n`-th (0-based) attempt.  Returns
`(was_successful, attempts made, sleep durations in order)`; the number of
`relog()` calls equals the number of attempts (one per iteration). -/
def retryLoopAux (outcome : Nat → AttemptOutcome) (retry_interval : Nat) :
    Nat → Nat → Bool × Nat × List Nat
  | 0, _idx => (false, 0, [])
  | rem + 1, idx =>
    let delay := (2 ^ idx - 1) * retry_interval
    match outcome idx with
    | .success => (true, 1, [delay])
    | .transientFailure =>
      let r := retryLoopAux outcome retry_interval rem (idx + 1)
      (r.1, r.2.1 + 1, delay :: r.2.2)

/-- Shallow embedding of `WikiClient._retry_login_action` (wiki_client.py
lines 169–183): run the retry loop for `max_retries` iterations; if no
attempt succeeded, raise `RetriedLoginAndStillFailed(failure_type)`.
Returns the outcome together with the number of attempts (= relogins) and
the list of sleep durations. -/
def retry_login_action (outcome : Nat → AttemptOutcome)
    (max_retries retry_interval : Nat) (failure_type : String) :
    Except WikiError Unit × Nat × List Nat :=
  let r := retryLoopAux outcome retry_interval max_retries 0
  if r.1 then (.ok (), r.2.1, r.2.2)
  else (.error (.retriedLoginAndStillFailed failure_type), r.2.1, r.2.2)

/-- Shallow embedding of the retry loop of `WikiClient.api_` (wiki_client.py
lines 186–199): one initial call, and on a `write_errors` failure the same
relog/sleep/retry loop, ending in `RetriedLoginAndStillFailed` with action `api`.
The returned `Nat` counts the retries (loop iterations), excluding the
initial call. -/
def api_ (firstOutcome : AttemptOutcome) (outcome : Nat → AttemptOutcome)
    (max_retries retry_interval : Nat) : Except WikiError Unit × Nat × List Nat :=
  match firstOutcome with
  | .success => (.ok (), 0, [])
  | .transientFailure =>
    let r := retryLoopAux outcome retry_interval max_retries 0
    if r.1 then (.ok (), r.2.1, r.2.2)
    else (.error (.retriedLoginAndStillFailed "api"), r.2.1, r.2.2)

/-! ## The write wrappers `save_`, `move_`, `delete_` -/

/-- What a write wrapper does with its first attempt, as seen by the caller:
returned normally, reported a protected page to the `log` sink, or raised. -/
inductive WriteResult where
  | done
  | logged
  | raised (e : WikiError)
deriving DecidableEq, Repr

/-- One full run of a write wrapper: its visible result, the action name
passed to `_retry_login_action` when the retry engine was entered (`none`
when it was not), the number of retries (= relogins) performed, and the
sleeps. -/
structure WriteRun where
  result : WriteResult
  retryAction : Option String
  retries : Nat
  sleeps : List Nat
deriving DecidableEq, Repr

/-- Shallow embedding of `WikiClient.save_` (wiki_client.py lines 98–120):
`except ProtectedPageError` first (log sink or re-raise, no retry), then
`except self.write_errors` entering `_retry_login_action` with failure type `edit`;
any other exception propagates.  `firstOutcome` scripts `page.save`
(`none` = returned normally), `retryOutcome` scripts the retried attempts. -/
def save_ (firstOutcome : Option WikiError) (hasLog : Bool)
    (retryOutcome : Nat → AttemptOutcome) (max_retries retry_interval : Nat) :
    WriteRun :=
  match firstOutcome with
  | none => ⟨.done, none, 0, []⟩
  | some .protectedPage =>
    if hasLog then ⟨.logged, none, 0, []⟩ else ⟨.raised .protectedPage, none, 0, []⟩
  | some e =>
    if isWriteError e then
      let r := retry_login_action retryOutcome max_retries retry_interval "edit"
      ⟨match r.1 with | .ok _ => .done | .error te => .raised te,
       some "edit", r.2.1, r.2.2⟩
    else ⟨.raised e, none, 0, []⟩

/-- Shallow embedding of `WikiClient.move_` (wiki_client.py lines 137–144):
only `except APIError as e` is present; the retry engine is entered only
when `e.code` equals `badtoken`, every other `APIError` is re-raised, and any
non-`APIError` exception (including `ReadTimeout` and
`AssertUserFailedError`) propagates uncaught. -/
def move_ (firstOutcome : Option WikiError)
    (retryOutcome : Nat → AttemptOutcome) (max_retries retry_interval : Nat) :
    WriteRun :=
  match firstOutcome with
  | none => ⟨.done, none, 0, []⟩
  | some (.apiError code) =>
    if code = "badtoken" then
      let r := retry_login_action retryOutcome max_retries retry_interval "move"
      ⟨match r.1 with | .ok _ => .done | .error te => .raised te,
       some "move", r.2.1, r.2.2⟩
    else ⟨.raised (.apiError code), none, 0, []⟩
  | some e => ⟨.raised e, none, 0, []⟩

/-- Shallow embedding of `WikiClient.delete_` (wiki_client.py lines 153–161):
same shape as `move_`, retrying only on `APIError` with code `badtoken`,
with failure type `delete`. -/
def delete_ (firstOutcome : Option WikiError)
    (retryOutcome : Nat → AttemptOutcome) (max_retries retry_interval : Nat) :
    WriteRun :=
  match firstOutcome with
  | none => ⟨.done, none, 0, []⟩
  | some (.apiError code) =>
    if code = "badtoken" then
      let r := retry_login_action retryOutcome max_retries retry_interval "delete"
      ⟨match r.1 with | .ok _ => .done | .error te => .raised te,
       some "delete", r.2.1, r.2.2⟩
    else ⟨.raised (.apiError code), none, 0, []⟩
  | some e => ⟨.raised e, none, 0, []⟩

/-! ## Post-relogin handle refresh (`_retry_save`, `_retry_move`) -/

/-- A page handle: its name together with the session generation of the
client object it was fetched from.  `relog()` moves the client to a fresh
generation, so a handle fetched before a relogin has a stale generation. -/
structure PageHandle where
  name : String
  sessionGen : Nat
deriving DecidableEq, Repr

/-- Resolve a page by name on the current session generation of the client
(the embedding of `self.client.pages[name]`). -/
def clientPages (sessionGen : Nat) (name : String) : PageHandle :=
  ⟨name, sessionGen⟩

/-- The save issued by a retried attempt: which handle and which text. -/
structure SaveCall where
  page : PageHandle
  text : String
deriving DecidableEq, Repr

/-- Handle recreation of `WikiClient._retry_save` (wiki_client.py lines
122–129): `page = self.client.pages[old_page.name]`, then
`page.save(text, ...)` on the recreated handle. -/
def retry_save (currentGen : Nat) (old_page : PageHandle) (text : String) :
    SaveCall :=
  ⟨clientPages currentGen old_page.name, text⟩

/-- The move issued by a retried attempt. -/
structure MoveCall where
  page : PageHandle
  new_title : String
deriving DecidableEq, Repr

/-- Handle recreation of `WikiClient._retry_move` (wiki_client.py lines
146–150): `page = self.client.pages[old_page.name]`, then
`page.move(new_title, ...)`. -/
def retry_move (currentGen : Nat) (old_page : PageHandle) (new_title : String) :
    MoveCall :=
  ⟨clientPages currentGen old_page.name, new_title⟩

/-- The retry loop of `_retry_login_action` specialized to `_retry_save`,
tracking session generations: each iteration first calls `relog()` (which
advances the client to a fresh generation) and then performs the retried
save through `_retry_save`.  Returns the list of save calls actually
issued, with the handle each one used. -/
def retrySaveCalls (outcome : Nat → AttemptOutcome) (old_page : PageHandle)
    (text : String) : Nat → Nat → Nat → List SaveCall
  | 0, _idx, _gen => []
  | rem + 1, idx, gen =>
    let genAfterRelog := gen + 1
    let c := retry_save genAfterRelog old_page text
    match outcome idx with
    | .success => [c]
    | .transientFailure =>
      c :: retrySaveCalls outcome old_page text rem (idx + 1) genAfterRelog

/-- The retry loop specialized to `_retry_move`, tracking generations. -/
def retryMoveCalls (outcome : Nat → AttemptOutcome) (old_page : PageHandle)
    (new_title : String) : Nat → Nat → Nat → List MoveCall
  | 0, _idx, _gen => []
  | rem + 1, idx, gen =>
    let genAfterRelog := gen + 1
    let c := retry_move genAfterRelog old_page new_title
    match outcome idx with
    | .success => [c]
    | .transientFailure =>
      c :: retryMoveCalls outcome old_page new_title rem (idx + 1) genAfterRelog

/-! ## Helper lemmas -/

theorem lookupParam_setParam (m : Params) (k v : String) :
    lookupParam (setParam m k v) k = some v := by
  induction m with
  | nil => simp [setParam, lookupParam]
  | cons a m ih =>
    obtain ⟨a1, a2⟩ := a
    by_cases h : a1 = k
    · simp [setParam, lookupParam, h]
    · simp only [setParam, lookupParam] at ih ⊢
      rw [if_neg (by simpa using h), List.find?_cons_of_neg _ (by simpa using h)]
      exact ih

theorem lookupParam_cons_self (k t : String) (bs : List (String × String)) :
    lookupParam ((k, t) :: bs) k = some t := by
  simp [lookupParam]

theorem expectedTrace_head (k : String) (pages : List (String × PyVal))
    (kwargs : Params) : (expectedTrace k pages kwargs).head? = some kwargs := by
  cases pages with
  | nil => simp [expectedTrace]
  | cons tp rest => obtain ⟨t, p⟩ := tp; simp [expectedTrace]

theorem expectedTrace_token (k : String) (pages : List (String × PyVal))
    (kwargs : Params) (j : Nat) (t2 : String) (p2 : PyVal)
    (hj : pages.get? j = some (t2, p2)) :
    ∃ kw, (expectedTrace k pages kwargs).get? (j + 1) = some kw ∧
      lookupParam kw k = some t2 := by
  induction pages generalizing j kwargs with
  | nil => simp at hj
  | cons tp rest ih =>
    obtain ⟨t, p⟩ := tp
    cases j with
    | zero =>
      simp only [List.get?] at hj
      injection hj with h2
      have ht2 : t = t2 := congrArg Prod.fst h2
      subst ht2
      refine ⟨setParam kwargs k t, ?_, lookupParam_setParam kwargs k t⟩
      simp only [expectedTrace, List.get?]
      rw [List.get?_zero, expectedTrace_head]
    | succ j2 =>
      simp only [List.get?] at hj
      obtain ⟨kw, h1, h2⟩ := ih (setParam kwargs k t) j2 hj
      exact ⟨kw, by simpa [expectedTrace, List.get?] using h1, h2⟩

theorem expectedTrace_length (k : String) (pages : List (String × PyVal))
    (kwargs : Params) :
    (expectedTrace k pages kwargs).length = pages.length + 1 := by
  induction pages generalizing kwargs with
  | nil => simp [expectedTrace]
  | cons tp rest ih =>
    obtain ⟨t, p⟩ := tp
    simp [expectedTrace, ih]

/-- Inner calls of `api_continue` (recursion depth already ≥ 1, continuation
key already frozen to `k`) on a clean script return `innerVal` together with
the expected request trace. -/
theorem api_continue_mkScript_inner (k : String) (hk : k ≠ "")
    (les : List (String × String)) (hles : les ≠ [])
    (pages : List (String × PyVal)) (htoks : ∀ tp ∈ pages, tp.1 ≠ "")
    (action : String) (i : Nat) (hi : 1 ≤ i) (kwargs : Params) :
    api_continue (mkScript k pages (.ordDict les)) action k i kwargs =
      (.value (innerVal pages (.ordDict les)), expectedTrace k pages kwargs) := by
  induction pages generalizing i kwargs with
  | nil =>
    have h1 : ¬ i + 1 = 1 := by omega
    simp [mkScript, api_continue, innerVal, expectedTrace, h1]
  | cons tp rest ih =>
    obtain ⟨t, p⟩ := tp
    have ht : t ≠ "" := htoks (t, p) (List.mem_cons_self _ _)
    have htoks2 : ∀ tp2 ∈ rest, tp2.1 ≠ "" :=
      fun tp2 h2 => htoks tp2 (List.mem_cons_of_mem _ h2)
    have hrec := ih htoks2 (i + 1) (by omega) (setParam kwargs k t)
    simp only [mkScript, api_continue]
    rw [if_neg (by simp [hk])]
    simp only [if_neg hk, lookupParam_cons_self]
    rw [if_neg ht]
    simp only [hrec]
    cases rest with
    | nil =>
      have : ¬ les.isEmpty := by simpa using hles
      simp [innerVal, truthy, this, combineStep, isOrdDict, expectedTrace,
        continueCombine]
    | cons tp2 rest2 =>
      simp [innerVal, truthy, combineStep, isOrdDict, expectedTrace,
        continueCombine]

/-- The outside call (`i = 0`, no caller-supplied continuation key) of
`api_continue` on a clean script: the key is auto-discovered from the first
continuation block of the first response, and the payloads come back as a
list with the payload of the last call first. -/
theorem api_continue_mkScript_run (k : String) (hk : k ≠ "")
    (les : List (String × String)) (hles : les ≠ [])
    (pages : List (String × PyVal)) (htoks : ∀ tp ∈ pages, tp.1 ≠ "")
    (action : String) (kwargs : Params) :
    api_continue (mkScript k pages (.ordDict les)) action "" 0 kwargs =
      (.value (.list (PyVal.ordDict les :: (pages.map Prod.snd).reverse)),
       expectedTrace k pages kwargs) := by
  cases pages with
  | nil => simp [mkScript, api_continue, expectedTrace]
  | cons tp rest =>
    obtain ⟨t, p⟩ := tp
    have ht : t ≠ "" := htoks (t, p) (List.mem_cons_self _ _)
    have htoks2 : ∀ tp2 ∈ rest, tp2.1 ≠ "" :=
      fun tp2 h2 => htoks tp2 (List.mem_cons_of_mem _ h2)
    have hrec := api_continue_mkScript_inner k hk les hles rest htoks2 action 1
      (by omega) (setParam kwargs k t)
    simp only [mkScript, api_continue]
    rw [if_neg (by simp)]
    simp only [eq_self_iff_true, if_true, List.headD_cons, lookupParam_cons_self]
    rw [if_neg ht]
    simp only [hrec]
    cases rest with
    | nil =>
      have : ¬ les.isEmpty := by simpa using hles
      simp [innerVal, truthy, this, combineStep, isOrdDict, expectedTrace,
        continueCombine]
    | cons tp2 rest2 =>
      simp [innerVal, truthy, combineStep, isOrdDict, expectedTrace,
        continueCombine]

/-- If the combine step produced a value, the recursive call already
returned a value (errors and `None` are never turned into a value). -/
theorem continueCombine_value (next : CResult × List Params) (p : PyVal)
    (kw : Params) (v : PyVal)
    (h : (continueCombine next p kw).1 = .value v) :
    ∃ v2, next.1 = .value v2 := by
  rcases next with ⟨res, tr⟩
  cases res with
  | value v2 => exact ⟨v2, rfl⟩
  | noneR => simp [continueCombine] at h
  | keyError k2 => simp [continueCombine] at h
  | indexError => simp [continueCombine] at h
  | attrError => simp [continueCombine] at h

/-- A value result of `api_continue` can only arise from a consumed
response that carried no continuation block at all. -/
theorem api_continue_value_needs_blockless (script : List ApiOutcome)
    (action : String) :
    ∀ cn i kwargs v, (api_continue script action cn i kwargs).1 = .value v →
      ∃ j r, script.get? j = some (.success r) ∧ r.cont = none := by
  induction script with
  | nil => intro cn i kwargs v h; simp [api_continue] at h
  | cons o rest ih =>
    intro cn i kwargs v h
    cases o with
    | failure => simp [api_continue] at h
    | success r =>
      obtain ⟨cont, payload⟩ := r
      cases cont with
      | none => exact ⟨0, ⟨none, payload⟩, rfl, rfl⟩
      | some block =>
        simp only [api_continue] at h
        split at h
        · exact absurd h (by simp)
        · split at h
          · exact absurd h (by simp)
          · split at h
            · exact absurd h (by simp)
            · obtain ⟨v2, hv2⟩ := continueCombine_value _ _ _ _ h
              obtain ⟨j, r2, h1, h2⟩ := ih _ _ _ _ hv2
              exact ⟨j + 1, r2, by simpa using h1, h2⟩

/-- Under all-transient outcomes the retry loop performs exactly its
iteration budget, fails, and sleeps the exponential-backoff schedule. -/
theorem retryLoopAux_all_transient (outcome : Nat → AttemptOutcome)
    (interval : Nat) (rem idx : Nat)
    (h : ∀ n, idx ≤ n → n < idx + rem → outcome n = .transientFailure) :
    retryLoopAux outcome interval rem idx =
      (false, rem, expectedSleeps interval rem idx) := by
  induction rem generalizing idx with
  | zero => simp [retryLoopAux, expectedSleeps]
  | succ rem ih =>
    have h0 : outcome idx = .transientFailure := h idx le_rfl (by omega)
    have ih2 := ih (idx + 1) (fun n h1 h2 => h n (by omega) (by omega))
    simp [retryLoopAux, h0, ih2, expectedSleeps]

/-- Every sleep the retry loop performs, under any outcome sequence,
follows the `(2 ^ attempt - 1) * interval` schedule (attempt indices
offset by the starting index of the loop). -/
theorem retryLoopAux_sleeps (outcome : Nat → AttemptOutcome)
    (interval : Nat) (rem idx : Nat) :
    ∀ j x, (retryLoopAux outcome interval rem idx).2.2.get? j = some x →
      x = (2 ^ (idx + j) - 1) * interval := by
  induction rem generalizing idx with
  | zero => intro j x hx; simp [retryLoopAux] at hx
  | succ rem ih =>
    intro j x hx
    simp only [retryLoopAux] at hx
    cases houtcome : outcome idx with
    | success =>
      rw [houtcome] at hx
      cases j with
      | zero =>
        simp only [List.get?] at hx; injection hx with hx2; rw [← hx2]; simp
      | succ j2 => simp only [List.get?] at hx; simp at hx
    | transientFailure =>
      rw [houtcome] at hx
      cases j with
      | zero =>
        simp only [List.get?] at hx; injection hx with hx2; rw [← hx2]; simp
      | succ j2 =>
        simp only [List.get?] at hx
        have := ih (idx + 1) j2 x hx
        have harith : idx + 1 + j2 = idx + (j2 + 1) := by omega
        rw [harith] at this
        exact this

/-- The retry loop attempts at least once when given a positive budget. -/
theorem retryLoopAux_attempts_pos (outcome : Nat → AttemptOutcome)
    (interval rem idx : Nat) :
    1 ≤ (retryLoopAux outcome interval (rem + 1) idx).2.1 := by
  simp only [retryLoopAux]
  cases outcome idx <;> simp

/-- `retry_login_action` reports exactly the sleep schedule of the loop whether
or not an attempt eventually succeeded. -/
theorem retry_login_action_sleeps (outcome : Nat → AttemptOutcome)
    (max_retries interval : Nat) (a : String) :
    (retry_login_action outcome max_retries interval a).2.2 =
      (retryLoopAux outcome interval max_retries 0).2.2 := by
  simp only [retry_login_action]
  split <;> rfl

/-- `retry_login_action` reports exactly the attempt count of the loop. -/
theorem retry_login_action_attempts (outcome : Nat → AttemptOutcome)
    (max_retries interval : Nat) (a : String) :
    (retry_login_action outcome max_retries interval a).2.1 =
      (retryLoopAux outcome interval max_retries 0).2.1 := by
  simp only [retry_login_action]
  split <;> rfl

/-- The retry loop of `api_`, when entered, reports exactly the sleep
schedule of the inner loop. -/
theorem api_sleeps (outcome : Nat → AttemptOutcome)
    (max_retries interval : Nat) :
    (api_ .transientFailure outcome max_retries interval).2.2 =
      (retryLoopAux outcome interval max_retries 0).2.2 := by
  simp only [api_]
  split <;> rfl

/-- Every save call issued by the retried-save loop uses a handle resolved
by the name of the old handle on a session generation newer than the one
the loop started from. -/
theorem retrySaveCalls_fresh (outcome : Nat → AttemptOutcome)
    (old_page : PageHandle) (text : String) :
    ∀ rem idx gen, ∀ c ∈ retrySaveCalls outcome old_page text rem idx gen,
      c.page = clientPages c.page.sessionGen old_page.name ∧
      gen < c.page.sessionGen := by
  intro rem
  induction rem with
  | zero => intro idx gen c hc; simp [retrySaveCalls] at hc
  | succ rem ih =>
    intro idx gen c hc
    simp only [retrySaveCalls] at hc
    cases houtcome : outcome idx with
    | success =>
      rw [houtcome] at hc
      simp only [List.mem_singleton] at hc
      subst hc
      exact ⟨rfl, Nat.lt_succ_self gen⟩
    | transientFailure =>
      rw [houtcome] at hc
      rcases List.mem_cons.mp hc with hc1 | hc2
      · subst hc1; exact ⟨rfl, Nat.lt_succ_self gen⟩
      · obtain ⟨h1, h2⟩ := ih (idx + 1) (gen + 1) c hc2
        exact ⟨h1, by omega⟩

/-- Every move call issued by the retried-move loop uses a handle resolved
by the name of the old handle on a session generation newer than the one
the loop started from. -/
theorem retryMoveCalls_fresh (outcome : Nat → AttemptOutcome)
    (old_page : PageHandle) (title : String) :
    ∀ rem idx gen, ∀ c ∈ retryMoveCalls outcome old_page title rem idx gen,
      c.page = clientPages c.page.sessionGen old_page.name ∧
      gen < c.page.sessionGen := by
  intro rem
  induction rem with
  | zero => intro idx gen c hc; simp [retryMoveCalls] at hc
  | succ rem ih =>
    intro idx gen c hc
    simp only [retryMoveCalls] at hc
    cases houtcome : outcome idx with
    | success =>
      rw [houtcome] at hc
      simp only [List.mem_singleton] at hc
      subst hc
      exact ⟨rfl, Nat.lt_succ_self gen⟩
    | transientFailure =>
      rw [houtcome] at hc
      rcases List.mem_cons.mp hc with hc1 | hc2
      · subst hc1; exact ⟨rfl, Nat.lt_succ_self gen⟩
      · obtain ⟨h1, h2⟩ := ih (idx + 1) (gen + 1) c hc2
        exact ⟨h1, by omega⟩

/-! ## Claim theorems -/

/-- C1 (counterexample): on the three-response run of the specification
(continuation tokens `A` then `B` under key `cmcontinue`, then a block-less
response), `api_continue` returns the payloads with the LAST call first,
which differs from the claimed call order. -/
theorem c1_counterexample :
    (api_continue
      [ .success ⟨some [("cmcontinue", "A")], .ordDict [("t", "1")]⟩,
        .success ⟨some [("cmcontinue", "B")], .ordDict [("t", "2")]⟩,
        .success ⟨none, .ordDict [("t", "3")]⟩ ] "query" "" 0 []) =
      (.value (.list [.ordDict [("t", "3")], .ordDict [("t", "2")],
          .ordDict [("t", "1")]]),
       [[], [("cmcontinue", "A")], [("cmcontinue", "B")]]) ∧
    PyVal.list [.ordDict [("t", "3")], .ordDict [("t", "2")],
        .ordDict [("t", "1")]] ≠
      PyVal.list [.ordDict [("t", "1")], .ordDict [("t", "2")],
        .ordDict [("t", "3")]] :=
  ⟨rfl, by simp⟩

/-- C1 (amended): on every clean aggregation run (every response before the
last carries a truthy token under key `k`, the last carries none and is a
truthy `OrderedDict`), `api_continue` returns the per-call payloads in
REVERSE call order (last call first), and each request after the first
includes the continuation key set to the token of the immediately preceding
response. -/
theorem c1_reverse_order_with_continuation_tokens (k action : String)
    (hk : k ≠ "") (les : List (String × String)) (hles : les ≠ [])
    (pages : List (String × PyVal)) (htoks : ∀ tp ∈ pages, tp.1 ≠ "")
    (kwargs : Params) :
    (api_continue (mkScript k pages (.ordDict les)) action "" 0 kwargs).1 =
      .value (.list (PyVal.ordDict les :: (pages.map Prod.snd).reverse)) ∧
    (api_continue (mkScript k pages (.ordDict les)) action "" 0 kwargs).2.length
      = pages.length + 1 ∧
    ∀ j t2 p2, pages.get? j = some (t2, p2) →
      ∃ kw, (api_continue (mkScript k pages (.ordDict les)) action "" 0
          kwargs).2.get? (j + 1) = some kw ∧ lookupParam kw k = some t2 := by
  have hrun := api_continue_mkScript_run k hk les hles pages htoks action kwargs
  refine ⟨by rw [hrun], by rw [hrun]; exact expectedTrace_length k pages kwargs,
    fun j t2 p2 hj => ?_⟩
  rw [hrun]
  exact expectedTrace_token k pages kwargs j t2 p2 hj

/-- C1 (witness): the amended theorem applied to the concrete two-token run. -/
theorem c1_reverse_order_with_continuation_tokens_witness :
    (api_continue (mkScript "cmcontinue"
        [("A", .ordDict [("t", "1")]), ("B", .ordDict [("t", "2")])]
        (.ordDict [("t", "3")])) "query" "" 0 []).1 =
      .value (.list (PyVal.ordDict [("t", "3")] ::
        ([("A", PyVal.ordDict [("t", "1")]),
          ("B", PyVal.ordDict [("t", "2")])].map Prod.snd).reverse)) :=
  (c1_reverse_order_with_continuation_tokens "cmcontinue" "query"
    (by decide) [("t", "3")] (by decide)
    [("A", .ordDict [("t", "1")]), ("B", .ordDict [("t", "2")])]
    (by intro tp htp; fin_cases htp <;> decide) []).1

/-- C2 (code evaluation): when the underlying API call of a page fails,
`api_continue` does NOT raise `ApiContinueError` (or anything else): it
logs and returns Python `None` — a normal return.  This contradicts the
claim and the docstring of `ApiContinueError` in errors.py. -/
theorem c2_failure_returns_none (rest : List ApiOutcome) (action cn : String)
    (i : Nat) (kwargs : Params) :
    api_continue (.failure :: rest) action cn i kwargs = (.noneR, [kwargs]) :=
  rfl

/-- C3: when every attempt fails with a transient (write-errors) failure,
`_retry_login_action` performs exactly `max_retries` attempts and raises
`RetriedLoginAndStillFailed` carrying the attempted action name, and the
retry loop of `api_` does the same with action name `api`; the raised error
is a kind distinct from the three underlying transient error kinds. -/
theorem c3_terminal_failure_after_exact_retries
    (outcome : Nat → AttemptOutcome) (max_retries interval : Nat) (a : String)
    (h : ∀ n, n < max_retries → outcome n = .transientFailure) :
    retry_login_action outcome max_retries interval a =
      (.error (.retriedLoginAndStillFailed a), max_retries,
        expectedSleeps interval max_retries 0) ∧
    api_ .transientFailure outcome max_retries interval =
      (.error (.retriedLoginAndStillFailed "api"), max_retries,
        expectedSleeps interval max_retries 0) ∧
    ∀ a2, ¬ isTransientKind (.retriedLoginAndStillFailed a2) := by
  have hloop := retryLoopAux_all_transient outcome interval max_retries 0
    (fun n h1 h2 => h n (by omega))
  refine ⟨?_, ?_, ?_⟩
  · simp [retry_login_action, hloop]
  · simp [api_, hloop]
  · intro a2 hc
    simp only [isTransientKind] at hc
    rcases hc with h1 | h1 | ⟨c, h1⟩ <;> simp at h1

/-- C3 (witness): three all-transient attempts with budget 3. -/
theorem c3_terminal_failure_after_exact_retries_witness :
    retry_login_action (fun _ => .transientFailure) 3 10 "edit" =
      (.error (.retriedLoginAndStillFailed "edit"), 3,
        expectedSleeps 10 3 0) :=
  (c3_terminal_failure_after_exact_retries (fun _ => .transientFailure)
    3 10 "edit" (fun _ _ => rfl)).1

/-- C4: every sleep performed by the retry engine before 0-based attempt
`n` lasts `(2 ^ n - 1) * interval` seconds, in `_retry_login_action` as
well as in the retry loop of `api_`; in particular the delays before
attempts 0, 1, 2, 3 are `0`, `interval`, `3 * interval`, `7 * interval`. -/
theorem c4_backoff_schedule (outcome : Nat → AttemptOutcome)
    (max_retries interval : Nat) (a : String) :
    (∀ j x, (retry_login_action outcome max_retries interval a).2.2.get? j
        = some x → x = (2 ^ j - 1) * interval) ∧
    (∀ fo j x, (api_ fo outcome max_retries interval).2.2.get? j = some x →
        x = (2 ^ j - 1) * interval) ∧
    (retry_login_action (fun _ => .transientFailure) 4 interval a).2.2 =
      [0, interval, 3 * interval, 7 * interval] := by
  refine ⟨fun j x hx => ?_, fun fo j x hx => ?_, ?_⟩
  · rw [retry_login_action_sleeps] at hx
    simpa using retryLoopAux_sleeps outcome interval max_retries 0 j x hx
  · cases fo with
    | success => simp [api_] at hx
    | transientFailure =>
      rw [api_sleeps] at hx
      simpa using retryLoopAux_sleeps outcome interval max_retries 0 j x hx
  · rw [retry_login_action_sleeps,
      retryLoopAux_all_transient (fun _ => .transientFailure) interval 4 0
        (fun n h1 h2 => rfl)]
    have he : expectedSleeps interval 4 0 =
        [(2 ^ 0 - 1) * interval, (2 ^ 1 - 1) * interval,
         (2 ^ 2 - 1) * interval, (2 ^ 3 - 1) * interval] := rfl
    norm_num [he]

/-- C4 (witness): the third sleep of an all-transient run with interval 10
is 30 seconds. -/
theorem c4_backoff_schedule_witness :
    (retry_login_action (fun _ => .transientFailure) 4 10 "edit").2.2.get? 2
      = some 30 ∧ (30 : Nat) = (2 ^ 2 - 1) * 10 :=
  ⟨rfl, (c4_backoff_schedule (fun _ => .transientFailure) 4 10 "edit").1
    2 30 rfl⟩

/-- C5 (counterexample): a first-attempt `ReadTimeout` — a transient kind —
on `move_` does NOT cause re-authentication and retry: the error propagates
immediately, with zero relogins and no retry-engine entry. -/
theorem c5_counterexample :
    isTransientKind .readTimeout ∧
    move_ (some .readTimeout) (fun _ => .success) 3 10 =
      ⟨.raised .readTimeout, none, 0, []⟩ :=
  ⟨Or.inr (Or.inl rfl), rfl⟩

/-- C5 (amended): only `save_` re-authenticates and retries on every
transient first-attempt failure kind; `move_` and `delete_` enter the retry
engine only for an `APIError` with code `badtoken`, and propagate every
other first-attempt failure (including the transient `ReadTimeout` and
`AssertUserFailedError`) immediately without relogin or retry. -/
theorem c5_transient_dispatch :
    (∀ e, isTransientKind e → ∀ hasLog r m i,
        (save_ (some e) hasLog r m i).retryAction = some "edit" ∧
        1 ≤ (save_ (some e) hasLog r (m + 1) i).retries) ∧
    (∀ r m i, (move_ (some (.apiError "badtoken")) r m i).retryAction
        = some "move") ∧
    (∀ r m i, (delete_ (some (.apiError "badtoken")) r m i).retryAction
        = some "delete") ∧
    (∀ c, c ≠ "badtoken" → ∀ r m i,
        move_ (some (.apiError c)) r m i =
          ⟨.raised (.apiError c), none, 0, []⟩ ∧
        delete_ (some (.apiError c)) r m i =
          ⟨.raised (.apiError c), none, 0, []⟩) ∧
    (∀ r m i,
        move_ (some .readTimeout) r m i = ⟨.raised .readTimeout, none, 0, []⟩ ∧
        move_ (some .assertUserFailed) r m i =
          ⟨.raised .assertUserFailed, none, 0, []⟩ ∧
        delete_ (some .readTimeout) r m i =
          ⟨.raised .readTimeout, none, 0, []⟩ ∧
        delete_ (some .assertUserFailed) r m i =
          ⟨.raised .assertUserFailed, none, 0, []⟩) := by
  refine ⟨?_, fun r m i => rfl, fun r m i => rfl, ?_,
    fun r m i => ⟨rfl, rfl, rfl, rfl⟩⟩
  · intro e he hasLog r m i
    have hretries : 1 ≤ (retry_login_action r (m + 1) i "edit").2.1 := by
      rw [retry_login_action_attempts]
      exact retryLoopAux_attempts_pos r i m 0
    simp only [isTransientKind] at he
    rcases he with rfl | rfl | ⟨c, rfl⟩ <;>
      exact ⟨rfl, hretries⟩
  · intro c hc r m i
    constructor <;> · simp only [move_, delete_]; rw [if_neg hc]

/-- C5 (witness): the amended theorem at `AssertUserFailedError` with one
retry that succeeds. -/
theorem c5_transient_dispatch_witness :
    (save_ (some .assertUserFailed) false (fun _ => .success) 3 10).retryAction
      = some "edit" ∧
    1 ≤ (save_ (some .assertUserFailed) false (fun _ => .success) (2 + 1) 10).retries :=
  c5_transient_dispatch.1 .assertUserFailed (Or.inl rfl) false
    (fun _ => .success) 2 10

/-- C6: every retried save and every retried move resolves its page handle
by name from the post-relogin client (a session generation strictly newer
than the one current when the loop was entered), so a handle fetched under
the old session is never reused. -/
theorem c6_retry_uses_fresh_handle (outcome : Nat → AttemptOutcome)
    (old_page : PageHandle) (text title : String) (rem idx gen : Nat) :
    (∀ c ∈ retrySaveCalls outcome old_page text rem idx gen,
        c.page = clientPages c.page.sessionGen old_page.name ∧
        gen < c.page.sessionGen ∧
        (old_page.sessionGen ≤ gen → c.page ≠ old_page)) ∧
    (∀ c ∈ retryMoveCalls outcome old_page title rem idx gen,
        c.page = clientPages c.page.sessionGen old_page.name ∧
        gen < c.page.sessionGen ∧
        (old_page.sessionGen ≤ gen → c.page ≠ old_page)) := by
  constructor
  · intro c hc
    obtain ⟨h1, h2⟩ := retrySaveCalls_fresh outcome old_page text rem idx gen c hc
    refine ⟨h1, h2, fun hgen he => ?_⟩
    have h3 := congrArg PageHandle.sessionGen he
    omega
  · intro c hc
    obtain ⟨h1, h2⟩ := retryMoveCalls_fresh outcome old_page title rem idx gen c hc
    refine ⟨h1, h2, fun hgen he => ?_⟩
    have h3 := congrArg PageHandle.sessionGen he
    omega

/-- C6 (witness): a one-iteration retry loop starting from generation 0 on
a handle fetched at generation 0. -/
theorem c6_retry_uses_fresh_handle_witness :
    (retry_save 1 ⟨"Page", 0⟩ "text").page =
      clientPages (retry_save 1 ⟨"Page", 0⟩ "text").page.sessionGen "Page" ∧
    0 < (retry_save 1 ⟨"Page", 0⟩ "text").page.sessionGen ∧
    ((0 : Nat) ≤ 0 → (retry_save 1 ⟨"Page", 0⟩ "text").page ≠ ⟨"Page", 0⟩) :=
  (c6_retry_uses_fresh_handle (fun _ => .success) ⟨"Page", 0⟩ "text" "T"
    1 0 0).1 (retry_save 1 ⟨"Page", 0⟩ "text") (by simp [retrySaveCalls])

/-- C7: a protected-page failure on the first `save_` attempt never enters
the retry engine and never relogs: with a `log` sink it is reported there
and not propagated, without one it propagates immediately. -/
theorem c7_fatal_propagates_immediately (r : Nat → AttemptOutcome)
    (m i : Nat) :
    save_ (some .protectedPage) true r m i = ⟨.logged, none, 0, []⟩ ∧
    save_ (some .protectedPage) false r m i =
      ⟨.raised .protectedPage, none, 0, []⟩ :=
  ⟨rfl, rfl⟩

/-- C8 (counterexample): with the caller-supplied key `xyzcontinue` and a
continuation block containing only `cmcontinue`, `api_continue` raises a
bare `KeyError` naming the requested key — not a descriptive error
suggesting the key actually present. -/
theorem c8_counterexample :
    (api_continue [.success ⟨some [("cmcontinue", "A")], .ordDict [("t", "1")]⟩]
        "query" "xyzcontinue" 0 []).1 = .keyError "xyzcontinue" ∧
    "xyzcontinue" ≠ "cmcontinue" :=
  ⟨rfl, by decide⟩

/-- C8 (amended): when the caller supplied a continuation key and a
response offers a continuation block without that exact key, `api_continue`
raises a `KeyError` for the supplied key (the uncaught dictionary lookup),
with no suggestion of the key actually present. -/
theorem c8_keyError_on_mismatch (block : List (String × String)) (p : PyVal)
    (rest : List ApiOutcome) (action cn : String) (i : Nat) (kwargs : Params)
    (hcn : cn ≠ "") (hmiss : lookupParam block cn = none) :
    api_continue (.success ⟨some block, p⟩ :: rest) action cn i kwargs =
      (.keyError cn, [kwargs]) := by
  simp only [api_continue]
  rw [if_neg (by simp [hcn])]
  simp only [if_neg hcn, hmiss]

/-- C8 (witness): the amended theorem at the concrete mismatch. -/
theorem c8_keyError_on_mismatch_witness :
    api_continue [.success ⟨some [("cmcontinue", "A")], .ordDict [("t", "1")]⟩]
        "query" "xyzcontinue" 0 [] = (.keyError "xyzcontinue", [[]]) :=
  c8_keyError_on_mismatch [("cmcontinue", "A")] (.ordDict [("t", "1")]) []
    "query" "xyzcontinue" 0 [] (by decide) rfl

/-- C9: a present continuation block whose chosen key holds a falsy (empty)
token makes `api_continue` return the error outcome `None` — the same
outcome as a failed API call, never the accumulated sequence — both for a
caller-supplied key and for an auto-discovered one; and a value is returned
only when some consumed response carries no continuation block at all. -/
theorem c9_empty_token_is_error_not_termination :
    (∀ block p rest action cn i kwargs, cn ≠ "" →
        lookupParam block cn = some "" →
        api_continue (.success ⟨some block, p⟩ :: rest) action cn i kwargs =
          (.noneR, [kwargs])) ∧
    (∀ k0 bs p rest action i kwargs,
        api_continue (.success ⟨some ((k0, "") :: bs), p⟩ :: rest) action ""
          i kwargs = (.noneR, [kwargs])) ∧
    (∀ rest action cn i kwargs,
        api_continue (.failure :: rest) action cn i kwargs =
          (.noneR, [kwargs])) ∧
    (∀ script action cn i kwargs v,
        (api_continue script action cn i kwargs).1 = .value v →
        ∃ j r2, script.get? j = some (.success r2) ∧ r2.cont = none) := by
  refine ⟨?_, ?_, fun rest action cn i kwargs => rfl,
    fun script action cn i kwargs v h =>
      api_continue_value_needs_blockless script action cn i kwargs v h⟩
  · intro block p rest action cn i kwargs hcn hlook
    simp only [api_continue]
    rw [if_neg (by simp [hcn])]
    simp [if_neg hcn, hlook]
  · intro k0 bs p rest action i kwargs
    simp only [api_continue]
    rw [if_neg (by simp)]
    simp [lookupParam_cons_self]

/-- C9 (witness): the first conjunct at a concrete falsy-token response. -/
theorem c9_empty_token_is_error_not_termination_witness :
    api_continue [.success ⟨some [("cmcontinue", "")], .ordDict [("t", "1")]⟩]
        "query" "cmcontinue" 0 [] = (.noneR, [[]]) :=
  c9_empty_token_is_error_not_termination.1 [("cmcontinue", "")]
    (.ordDict [("t", "1")]) [] "query" "cmcontinue" 0 [] (by decide) rfl

/-- C10: the combine step wraps the recursive result in a list only when
its type is exactly `collections.OrderedDict`; a plain `dict` (or any other
non-list) is left unwrapped and the subsequent `.append` raises
`AttributeError`, so a multi-page aggregation is well-defined exactly when
the recursed-upon payload is an `OrderedDict` or a list. -/
theorem c10_append_requires_ordDict_or_list :
    (∀ es p, combineStep (.dict es) p = none) ∧
    (∀ es p, combineStep (.ordDict es) p = some (.list [.ordDict es, p])) ∧
    (∀ l p, combineStep (.list l) p = some (.list (l ++ [p]))) ∧
    (∀ s p, combineStep (.str s) p = none) ∧
    (∀ k t p1 es, t ≠ "" → es ≠ [] →
        (api_continue [.success ⟨some [(k, t)], p1⟩,
            .success ⟨none, .dict es⟩] "query" "" 0 []).1 = .attrError) ∧
    (∀ k t p1 es, t ≠ "" → es ≠ [] →
        (api_continue [.success ⟨some [(k, t)], p1⟩,
            .success ⟨none, .ordDict es⟩] "query" "" 0 []).1 =
          .value (.list [.ordDict es, p1])) ∧
    (∀ k t p1 l, t ≠ "" → l ≠ [] →
        (api_continue [.success ⟨some [(k, t)], p1⟩,
            .success ⟨none, .list l⟩] "query" "" 0 []).1 =
          .value (.list (l ++ [p1]))) := by
  refine ⟨fun es p => rfl, fun es p => rfl, fun l p => rfl, fun s p => rfl,
    ?_, ?_, ?_⟩
  · intro k t p1 es ht hes
    have hne : ¬ es.isEmpty := by simpa using hes
    simp only [api_continue]
    rw [if_neg (by simp)]
    simp [lookupParam_cons_self, if_neg ht, continueCombine, truthy, hne,
      combineStep, isOrdDict]
  · intro k t p1 es ht hes
    have hne : ¬ es.isEmpty := by simpa using hes
    simp only [api_continue]
    rw [if_neg (by simp)]
    simp [lookupParam_cons_self, if_neg ht, continueCombine, truthy, hne,
      combineStep, isOrdDict]
  · intro k t p1 l ht hl
    have hne : ¬ l.isEmpty := by simpa using hl
    simp only [api_continue]
    rw [if_neg (by simp)]
    simp [lookupParam_cons_self, if_neg ht, continueCombine, truthy, hne,
      combineStep, isOrdDict]

/-- C10 (witness): the plain-dict conjunct at a concrete two-page run. -/
theorem c10_append_requires_ordDict_or_list_witness :
    (api_continue [.success ⟨some [("cmcontinue", "A")], .ordDict [("t", "1")]⟩,
        .success ⟨none, .dict [("t", "2")]⟩] "query" "" 0 []).1 = .attrError :=
  c10_append_requires_ordDict_or_list.2.2.2.2.1 "cmcontinue" "A"
    (.ordDict [("t", "1")]) [("t", "2")] (by decide) (by decide)

end CustomMwclient
